import Mathlib

/-!
Verification of the uds-proxy request relay path.

Shallow embedding of `proxy/conn.go` and `proxy/utility.go` of the
uds-proxy repository.  Headers are modelled as association lists with
Go `net/textproto` canonical-key semantics; the per-request handler
`handleProxyRequest`, the shutdown routine `Shutdown`, and the redirect
policy installed by `newHTTPClient` are modelled as pure functions with
the I/O collaborators (peer-credential read, user/group database lookup,
the pooled client round trip) passed in as explicit parameters.
-/

namespace UdsProxy

/-- Go `textproto` header-token characters: alphanumerics plus the special
bytes accepted by `validHeaderFieldByte` (the codes below are
! # $ % & the apostrophe * + - . ^ _ the backtick | ~). -/
def isTokenChar (c : Char) : Bool :=
  c.isAlphanum || [33, 35, 36, 37, 38, 39, 42, 43, 45, 46, 94, 95, 96, 124, 126].contains c.toNat

/-- The character rewriting of `textproto.CanonicalMIMEHeaderKey`: uppercase
the first letter and every letter following a hyphen, lowercase the rest.
The boolean argument records whether the previous character was a hyphen
(initially true). -/
def canonChars : Bool → List Char → List Char
  | _, [] => []
  | up, c :: rest => (if up then c.toUpper else c.toLower) :: canonChars (c = '-') rest

/-- `textproto.CanonicalMIMEHeaderKey`: canonicalise a header key; a key
containing an invalid header-field byte is returned unmodified. -/
def canonicalMIMEHeaderKey (s : String) : String :=
  if s.toList.all isTokenChar then String.mk (canonChars true s.toList) else s

/-- Go `http.Header`: a map from canonical header keys to lists of values,
modelled as an association list (Go map iteration order is arbitrary; all
results proved below are order-independent). -/
abbrev Header := List (String × List String)

/-- `Header.Del`: remove all values associated with the canonical key. -/
def hDel (h : Header) (k : String) : Header :=
  h.filter (fun e => e.1 ≠ canonicalMIMEHeaderKey k)

/-- `Header.Set`: replace the values associated with the canonical key by the
single given value. -/
def hSet (h : Header) (k v : String) : Header :=
  hDel h k ++ [(canonicalMIMEHeaderKey k, [v])]

/-- `Header.Add`: append a value to the canonical key, keeping existing values. -/
def hAdd (h : Header) (k v : String) : Header :=
  let ck := canonicalMIMEHeaderKey k
  if h.any (fun e => e.1 = ck) then
    h.map (fun e => if e.1 = ck then (e.1, e.2 ++ [v]) else e)
  else h ++ [(ck, [v])]

/-- Raw map lookup: the values stored under the (already canonical) key
`ck`, the empty list when the key is absent. -/
def hFindVals : Header → String → List String
  | [], _ => []
  | e :: rest, ck => if e.1 = ck then e.2 else hFindVals rest ck

/-- All values stored under the canonical key (empty list when absent). -/
def hGetValues (h : Header) (k : String) : List String :=
  hFindVals h (canonicalMIMEHeaderKey k)

/-- `Header.Get`: the first value stored under the canonical key, or "". -/
def hGet (h : Header) (k : String) : String :=
  match hGetValues h k with
  | [] => ""
  | v :: _ => v

/-- A header as produced by Go's request/response parser: canonical keys,
no duplicate keys, and every key holds at least one value. -/
def headerWF (h : Header) : Prop :=
  (h.map Prod.fst).Nodup ∧ ∀ e ∈ h, e.1 = canonicalMIMEHeaderKey e.1 ∧ e.2 ≠ []

/-- The `Settings` struct of `conn.go` (fields irrelevant to the relay path
are kept for completeness). -/
structure Settings where
  socketPath : String
  socketMode : Int
  clientTimeout : Int
  maxConnsPerHost : Int
  maxIdleConns : Int
  maxIdleConnsPerHost : Int
  idleConnTimeout : Int
  socketReadTimeout : Int
  socketWriteTimeout : Int
  printVersion : Bool
  noLogTimeStamps : Bool
  remoteHTTPS : Bool
  forceRemoteHost : String
  insecureSkipVerify : Bool
deriving DecidableEq, Repr

/-- Peer credentials as returned by `peercred.Read`: the numeric uid and gid
of the connecting process. -/
structure Cred where
  uid : Nat
  gid : Nat
deriving DecidableEq, Repr

/-- An HTTP request: `method`, the `Host` field, the URL rendered as a string
(`clientRequest.URL` prints as path plus query for requests read off a
socket), the header map and the (streamed) body. -/
structure Request where
  method : String
  host : String
  urlStr : String
  header : Header
  body : String
deriving DecidableEq, Repr

/-- An HTTP response from the backend. -/
structure Response where
  statusCode : Nat
  header : Header
  body : String
deriving DecidableEq, Repr

/-- The `*url.Error` values produced by `http.Client.Do` (its documented
contract: any returned error is of type `*url.Error`); `isTimeout` is the
result of its `Timeout()` method, `msg` of `Error()`. -/
structure UrlError where
  msg : String
  isTimeout : Bool
deriving DecidableEq, Repr

/-- What the handler wrote back to the inbound connection. -/
structure ClientResponse where
  status : Nat
  header : Header
  body : String
deriving DecidableEq, Repr

/-- What the handler did towards the backend: nothing, an outbound request
that the pooled client failed, or an outbound request with its response
and whether the response body was closed. -/
inductive BackendInteraction where
  | notIssued
  | issuedErr (req : Request) (e : UrlError)
  | issuedOk (req : Request) (resp : Response) (bodyClosed : Bool)
deriving DecidableEq, Repr

/-- The outbound request carried by a `BackendInteraction`, when one was issued. -/
def issuedRequest : BackendInteraction → Option Request
  | .notIssued => none
  | .issuedErr req _ => some req
  | .issuedOk req _ _ => some req

/-- `http.Error(w, msg, code)`: deletes Content-Length, sets Content-Type and
X-Content-Type-Options on the response writer's header, writes the status
code and the message followed by a newline. -/
def httpError (h : Header) (msg : String) (code : Nat) : ClientResponse :=
  { status := code
    header := hSet (hSet (hDel h "Content-Length")
        "Content-Type" "text/plain; charset=utf-8")
        "X-Content-Type-Options" "nosniff"
    body := msg ++ "\n" }

/-- Lines 143–153 of `conn.go`: the target URL string,
`fmt.Sprintf("%s://%s%s", scheme, targetHost, clientRequest.URL)` with
scheme forced to https by `RemoteHTTPS` and host forced by a non-empty
`ForceRemoteHost`. -/
def buildTargetURL (opts : Settings) (clientRequest : Request) : String :=
  let scheme := if opts.remoteHTTPS then "https" else "http"
  let targetHost := if opts.forceRemoteHost ≠ "" then opts.forceRemoteHost else clientRequest.host
  scheme ++ "://" ++ targetHost ++ clientRequest.urlStr

/-- Lines 170–189 of `conn.go`: the identity/forwarding header mutations on
the backend request.  `lookupId` and `lookupGroupId` stand for
`user.LookupId` / `user.LookupGroupId` keyed by the numeric id (the Go code
passes `fmt.Sprintf("%d", id)`, an injective rendering), returning `none`
on a lookup error. -/
def setIdentityHeaders (h : Header) (cred : Cred)
    (lookupId lookupGroupId : Nat → Option String) : Header :=
  let uidStr := toString cred.uid
  let h1 := hSet h "X-Auth-UID" uidStr
  let h2 := match lookupId cred.uid with
    | some usr => hSet h1 "X-Auth-User" usr
    | none => hDel h1 "X-Auth-User"
  let gidStr := toString cred.gid
  let h3 := hSet h2 "X-Auth-GID" gidStr
  let h4 := match lookupGroupId cred.gid with
    | some grp => hSet h3 "X-Auth-Group" grp
    | none => hDel h3 "X-Auth-Group"
  let h5 := hDel h4 "X-Auth-Roles"
  hSet h5 "X-Forwarded-For" "127.0.0.1"

/-- Lines 155–189 of `conn.go`: the outbound request.  `http.NewRequest`
parses the target URL (its failure path, a 500 response, is unreachable for
URLs rebuilt from server-parsed requests and is not modelled); line 160 then
overwrites `backendRequest.Host` with `clientRequest.Host`, line 161 installs
the inbound header map, and the identity headers are applied on top. -/
def buildBackendRequest (opts : Settings) (clientRequest : Request) (cred : Cred)
    (lookupId lookupGroupId : Nat → Option String) : Request :=
  { method := clientRequest.method
    host := clientRequest.host
    urlStr := buildTargetURL opts clientRequest
    header := setIdentityHeaders clientRequest.header cred lookupId lookupGroupId
    body := clientRequest.body }

/-- Lines 201–206 of `conn.go`: copy one backend header entry onto the client
response writer, `Set` for the first value then `Add` for the rest (an entry
with no values would make the Go indexing `v[0]` panic; parsed response
headers always carry at least one value, see `headerWF`). -/
def setAllValues (h : Header) (k : String) (vs : List String) : Header :=
  match vs with
  | [] => h
  | v0 :: rest => rest.foldl (fun acc vv => hAdd acc k vv) (hSet h k v0)

/-- Lines 201–206 of `conn.go`: the header-copy loop over the backend
response header. -/
def copyRespHeaders (respHeader : Header) (h : Header) : Header :=
  respHeader.foldl (fun acc e => setAllValues acc e.1 e.2) h

/-- Lines 142–210 of `conn.go`, `handleProxyRequest`, as a pure function of
its collaborators: `credRead` is the result of `peercred.Read` on the
request's connection, `lookupId`/`lookupGroupId` the OS identity database,
and `clientDo` the pooled client's round trip (per `http.Client.Do`'s
documented contract any error is a `*url.Error`).  The result records the
response written to the client and the backend interaction. -/
structure HandlerOutcome where
  response : ClientResponse
  backend : BackendInteraction
deriving DecidableEq, Repr

def handleProxyRequest (opts : Settings) (clientRequest : Request)
    (credRead : Except String Cred)
    (lookupId lookupGroupId : Nat → Option String)
    (clientDo : Request → Except UrlError Response) : HandlerOutcome :=
  match credRead with
  | .error e =>
    { response := httpError [] e 500
      backend := .notIssued }
  | .ok cred =>
    let backendRequest := buildBackendRequest opts clientRequest cred lookupId lookupGroupId
    match clientDo backendRequest with
    | .error e =>
      { response := httpError [] e.msg (if e.isTimeout then 504 else 502)
        backend := .issuedErr backendRequest e }
    | .ok backendResponse =>
      { response :=
          { status := backendResponse.statusCode
            header := copyRespHeaders backendResponse.header []
            body := backendResponse.body }
        backend := .issuedOk backendRequest backendResponse true }

/-- Lines 191–198 of `conn.go`: the status chosen for a failed round trip,
`504` when `err.(*url.Error).Timeout()`, else `502`. -/
def classifyDoError (e : UrlError) : Nat :=
  if e.isTimeout then 504 else 502

/-! ### The pooled client's redirect handling

`newHTTPClient` (lines 212–231 of `conn.go`) installs
`CheckRedirect: func(req, via) error { return http.ErrUseLastResponse }`.
The surrounding loop is Go's `http.Client.Do`, modelled here from its
documented behaviour: a response whose status is one of 301, 302, 303, 307,
308 triggers redirect handling; a redirect response without a Location
header is returned as-is; otherwise the next request is built and
`CheckRedirect` consulted — `ErrUseLastResponse` makes the client return
the most recent response with its body unclosed; at most 10 redirects are
followed. -/

/-- The outcome of a `CheckRedirect` callback. -/
inductive RedirectDecision where
  | proceed
  | useLastResponse
  | checkFail (msg : String)
deriving DecidableEq, Repr

/-- The statuses Go's client treats as redirects (`redirectBehavior`). -/
def redirectStatus (status : Nat) : Bool :=
  [301, 302, 303, 307, 308].contains status

/-- The follow-up request Go's client would build for a redirect: 307/308
keep the method, other redirect statuses rewrite non-GET/HEAD methods to
GET; the URL comes from the Location header. -/
def buildRedirectRequest (req : Request) (resp : Response) : Request :=
  { method :=
      if req.method = "GET" ∨ req.method = "HEAD"
          ∨ resp.statusCode = 307 ∨ resp.statusCode = 308
      then req.method else "GET"
    host := ""
    urlStr := hGet resp.header "Location"
    header := req.header
    body := req.body }

/-- Go's `http.Client.Do` redirect loop over an abstract single round trip
`send`, with explicit fuel (Go stops after 10 redirects). -/
def clientDoLoop (checkRedirect : Request → List Request → RedirectDecision)
    (send : Request → Except UrlError Response) :
    Nat → Request → List Request → Except UrlError Response
  | 0, _, _ => .error { msg := "stopped after 10 redirects", isTimeout := false }
  | fuel + 1, req, via =>
    match send req with
    | .error e => .error e
    | .ok resp =>
      if redirectStatus resp.statusCode then
        if hGet resp.header "Location" = "" then .ok resp
        else
          let nextReq := buildRedirectRequest req resp
          match checkRedirect nextReq (via ++ [req]) with
          | .useLastResponse => .ok resp
          | .checkFail m => .error { msg := m, isTimeout := false }
          | .proceed => clientDoLoop checkRedirect send fuel nextReq (via ++ [req])
      else .ok resp

/-- The `CheckRedirect` policy `newHTTPClient` installs: always
`http.ErrUseLastResponse`. -/
def udsCheckRedirect : Request → List Request → RedirectDecision :=
  fun _ _ => .useLastResponse

/-- The pooled client's `Do` as configured by `newHTTPClient`. -/
def udsClientDo (send : Request → Except UrlError Response)
    (req : Request) : Except UrlError Response :=
  clientDoLoop udsCheckRedirect send 10 req []

/-! ### Shutdown -/

/-- The state `Shutdown` acts on: the filesystem (socket path and friends)
and the pooled client's idle connections. -/
structure SysState where
  files : List String
  idleConns : Nat
deriving DecidableEq, Repr

/-- `http.Client.CloseIdleConnections`. -/
def closeIdleConnections (s : SysState) : SysState :=
  { s with idleConns := 0 }

/-- `os.Remove` with its error ignored, as on line 112 of `conn.go`. -/
def osRemove (s : SysState) (path : String) : SysState :=
  { s with files := s.files.filter (fun f => f ≠ path) }

/-- Lines 106–114 of `conn.go`, `Instance.Shutdown`: close idle pooled
connections, then remove the socket file (logging has no modelled effect). -/
def shutdown (opts : Settings) (s : SysState) : SysState :=
  osRemove (closeIdleConnections s) opts.socketPath

/-! ### Header lemmas -/

theorem hFindVals_absent (h : Header) (ck : String) (hk : ∀ e ∈ h, e.1 ≠ ck) :
    hFindVals h ck = [] := by
  induction h with
  | nil => rfl
  | cons e rest ih =>
    simp only [hFindVals, hk e (by simp), if_false]
    exact ih (fun e2 m => hk e2 (by simp [m]))

theorem absent_of_any_eq_false (h : Header) (ck : String)
    (hp : h.any (fun e => e.1 = ck) = false) : ∀ e ∈ h, e.1 ≠ ck := by
  intro e me hee
  have ht : h.any (fun e => e.1 = ck) = true := List.any_eq_true.mpr ⟨e, me, by simp [hee]⟩
  rw [hp] at ht
  exact Bool.false_ne_true ht

theorem hFindVals_append_absent (h1 h2 : Header) (ck : String)
    (hk : ∀ e ∈ h1, e.1 ≠ ck) :
    hFindVals (h1 ++ h2) ck = hFindVals h2 ck := by
  induction h1 with
  | nil => rfl
  | cons e rest ih =>
    rw [List.cons_append]
    simp only [hFindVals, hk e (by simp), if_false]
    exact ih (fun e2 m => hk e2 (by simp [m]))

theorem hFindVals_append (h1 h2 : Header) (ck : String) :
    hFindVals (h1 ++ h2) ck =
      if h1.any (fun e => e.1 = ck) then hFindVals h1 ck else hFindVals h2 ck := by
  induction h1 with
  | nil => simp [hFindVals]
  | cons e rest ih =>
    by_cases he : e.1 = ck
    · simp [hFindVals, he]
    · have hd : decide (e.1 = ck) = false := by simp [he]
      simp only [List.cons_append, hFindVals, he, if_false, List.any_cons, hd, Bool.false_or]
      exact ih

theorem hFindVals_filter (p : String × List String → Bool) (h : Header) (ck : String)
    (hp : ∀ e, e.1 = ck → p e = true) :
    hFindVals (h.filter p) ck = hFindVals h ck := by
  induction h with
  | nil => rfl
  | cons e rest ih =>
    rw [List.filter_cons]
    by_cases hpe : p e = true
    · simp only [hpe, if_true, hFindVals]
      by_cases he2 : e.1 = ck
      · simp [he2]
      · simp [he2, ih]
    · have he2 : e.1 ≠ ck := fun hh => hpe (hp e hh)
      have hpe2 : p e = false := by simpa using hpe
      rw [hpe2]
      simp only [Bool.false_eq_true, if_false, hFindVals, he2, ite_false]
      simp [hFindVals, he2, ih]

theorem hDel_keys (h : Header) (k : String) :
    ∀ e ∈ hDel h k, e.1 ≠ canonicalMIMEHeaderKey k := by
  intro e he
  have := (List.mem_filter.mp he).2
  simpa using this

theorem hFindVals_hDel_same (h : Header) (k : String) :
    hFindVals (hDel h k) (canonicalMIMEHeaderKey k) = [] :=
  hFindVals_absent _ _ (hDel_keys h k)

theorem hFindVals_hDel_ne (h : Header) (k ck' : String)
    (hk : ck' ≠ canonicalMIMEHeaderKey k) :
    hFindVals (hDel h k) ck' = hFindVals h ck' := by
  apply hFindVals_filter
  intro e hee
  simp [hee, hk]

theorem hFindVals_hSet_same (h : Header) (k ck' v : String)
    (hck : ck' = canonicalMIMEHeaderKey k) :
    hFindVals (hSet h k v) ck' = [v] := by
  subst hck
  rw [hSet, hFindVals_append_absent _ _ _ (hDel_keys h k)]
  simp [hFindVals]

theorem hFindVals_hSet_ne (h : Header) (k ck' v : String)
    (hk : ck' ≠ canonicalMIMEHeaderKey k) :
    hFindVals (hSet h k v) ck' = hFindVals h ck' := by
  rw [hSet, hFindVals_append]
  by_cases hp : (hDel h k).any (fun e => e.1 = ck')
  · simp only [hp, if_true]
    exact hFindVals_hDel_ne h k ck' hk
  · simp only [Bool.not_eq_true] at hp
    have habs : ∀ e ∈ h, e.1 ≠ ck' := by
      intro e me hee
      have hmem : e ∈ hDel h k := by
        rw [hDel, List.mem_filter]
        refine ⟨me, ?_⟩
        simp [hee, hk]
      exact absent_of_any_eq_false _ _ hp e hmem hee
    rw [hp]
    simp only [if_false, hFindVals, Ne.symm hk, ite_false]
    rw [hFindVals_absent h ck' habs]
    rfl

theorem hFindVals_map_add_same (h : Header) (ck v : String)
    (hp : h.any (fun e => e.1 = ck) = true) :
    hFindVals (h.map (fun e => if e.1 = ck then (e.1, e.2 ++ [v]) else e)) ck
      = hFindVals h ck ++ [v] := by
  induction h with
  | nil => simp at hp
  | cons e rest ih =>
    by_cases he : e.1 = ck
    · simp [hFindVals, he]
    · have hp2 : rest.any (fun e => e.1 = ck) = true := by simpa [he] using hp
      simp [hFindVals, he, ih hp2]

theorem hFindVals_map_add_ne (h : Header) (ck ck' v : String) (hk : ck' ≠ ck) :
    hFindVals (h.map (fun e => if e.1 = ck then (e.1, e.2 ++ [v]) else e)) ck'
      = hFindVals h ck' := by
  induction h with
  | nil => rfl
  | cons e rest ih =>
    by_cases he : e.1 = ck
    · simp [hFindVals, he, Ne.symm hk, ih]
    · by_cases he2 : e.1 = ck'
      · simp [hFindVals, he, he2, hk]
      · simp [hFindVals, he, he2, ih]

theorem hFindVals_hAdd_same (h : Header) (k ck' v : String)
    (hck : ck' = canonicalMIMEHeaderKey k) :
    hFindVals (hAdd h k v) ck' = hFindVals h ck' ++ [v] := by
  subst hck
  simp only [hAdd]
  by_cases hany : (h.any (fun e => e.1 = canonicalMIMEHeaderKey k)) = true
  · rw [if_pos hany]
    exact hFindVals_map_add_same h _ v hany
  · rw [if_neg hany]
    have hany2 : h.any (fun e => e.1 = canonicalMIMEHeaderKey k) = false :=
      Bool.eq_false_iff.mpr hany
    have habs := absent_of_any_eq_false h _ hany2
    rw [hFindVals_append_absent _ _ _ habs, hFindVals_absent h _ habs]
    simp [hFindVals]

theorem hFindVals_hAdd_ne (h : Header) (k ck' v : String)
    (hk : ck' ≠ canonicalMIMEHeaderKey k) :
    hFindVals (hAdd h k v) ck' = hFindVals h ck' := by
  simp only [hAdd]
  by_cases hany : (h.any (fun e => e.1 = canonicalMIMEHeaderKey k)) = true
  · rw [if_pos hany]
    exact hFindVals_map_add_ne h _ ck' v hk
  · rw [if_neg hany, hFindVals_append]
    by_cases hp : (h.any (fun e => e.1 = ck')) = true
    · rw [if_pos hp]
    · rw [if_neg hp]
      have hp2 : h.any (fun e => e.1 = ck') = false := Bool.eq_false_iff.mpr hp
      rw [hFindVals_absent h ck' (absent_of_any_eq_false h ck' hp2)]
      simp [hFindVals, Ne.symm hk]

theorem hFindVals_foldl_hAdd_same (vs : List String) (acc : Header) (k ck' : String)
    (hck : ck' = canonicalMIMEHeaderKey k) :
    hFindVals (vs.foldl (fun a vv => hAdd a k vv) acc) ck' = hFindVals acc ck' ++ vs := by
  induction vs generalizing acc with
  | nil => simp
  | cons v vs ih =>
    rw [List.foldl_cons, ih, hFindVals_hAdd_same acc k ck' v hck]
    simp

theorem hFindVals_foldl_hAdd_ne (vs : List String) (acc : Header) (k ck' : String)
    (hk : ck' ≠ canonicalMIMEHeaderKey k) :
    hFindVals (vs.foldl (fun a vv => hAdd a k vv) acc) ck' = hFindVals acc ck' := by
  induction vs generalizing acc with
  | nil => rfl
  | cons v vs ih =>
    rw [List.foldl_cons, ih, hFindVals_hAdd_ne acc k ck' v hk]

theorem hFindVals_setAllValues_same (acc : Header) (k ck' : String) (vs : List String)
    (hvs : vs ≠ []) (hck : ck' = canonicalMIMEHeaderKey k) :
    hFindVals (setAllValues acc k vs) ck' = vs := by
  match vs with
  | [] => exact absurd rfl hvs
  | v0 :: rest =>
    simp only [setAllValues]
    rw [hFindVals_foldl_hAdd_same rest _ k ck' hck, hFindVals_hSet_same acc k ck' v0 hck]
    rfl

theorem hFindVals_setAllValues_ne (acc : Header) (k ck' : String) (vs : List String)
    (hk : ck' ≠ canonicalMIMEHeaderKey k) :
    hFindVals (setAllValues acc k vs) ck' = hFindVals acc ck' := by
  match vs with
  | [] => rfl
  | v0 :: rest =>
    simp only [setAllValues]
    rw [hFindVals_foldl_hAdd_ne rest _ k ck' hk, hFindVals_hSet_ne acc k ck' v0 hk]

theorem hFindVals_copyRespHeaders (src : Header) (ck : String) :
    ∀ acc : Header, (src.map Prod.fst).Nodup →
      (∀ e ∈ src, e.1 = canonicalMIMEHeaderKey e.1) →
      (∀ e ∈ src, e.2 ≠ []) →
      hFindVals (copyRespHeaders src acc) ck =
        if src.any (fun e => e.1 = ck) then hFindVals src ck else hFindVals acc ck := by
  induction src with
  | nil =>
    intro acc _ _ _
    simp [copyRespHeaders, hFindVals]
  | cons e rest ih =>
    intro acc hnd hcanon hne
    have hcanon_e : e.1 = canonicalMIMEHeaderKey e.1 := hcanon e (by simp)
    have hne_e : e.2 ≠ [] := hne e (by simp)
    rw [List.map_cons] at hnd
    obtain ⟨hnotmem, hnd2⟩ := List.nodup_cons.mp hnd
    have hcopy : copyRespHeaders (e :: rest) acc
        = copyRespHeaders rest (setAllValues acc e.1 e.2) := rfl
    rw [hcopy, ih (setAllValues acc e.1 e.2) hnd2
      (fun e2 m => hcanon e2 (by simp [m])) (fun e2 m => hne e2 (by simp [m]))]
    by_cases hce : e.1 = ck
    · have hrest : rest.any (fun e2 => e2.1 = ck) = false := by
        by_cases hb : (rest.any (fun e2 => e2.1 = ck)) = true
        · obtain ⟨e2, m2, hp2⟩ := List.any_eq_true.mp hb
          have he2 : e2.1 = ck := by simpa using hp2
          exact absurd (by rw [hce, ← he2]; exact List.mem_map_of_mem Prod.fst m2) hnotmem
        · exact Bool.eq_false_iff.mpr hb
      have hsame := hFindVals_setAllValues_same acc e.1 ck e.2 hne_e (hce.symm.trans hcanon_e)
      have hany : ((e :: rest).any (fun e2 => e2.1 = ck)) = true := by simp [hce]
      rw [hrest, if_neg Bool.false_ne_true, hsame, if_pos hany]
      simp [hFindVals, hce]
    · have hacc := hFindVals_setAllValues_ne acc e.1 ck e.2
        (fun hh => hce (hcanon_e.trans hh.symm))
      have hd : decide (e.1 = ck) = false := by simp [hce]
      rw [hacc]
      have h1 : ((e :: rest).any fun e2 => e2.1 = ck) = (rest.any fun e2 => e2.1 = ck) := by
        simp [List.any_cons, hd]
      have h2 : hFindVals (e :: rest) ck = hFindVals rest ck := by
        simp [hFindVals, hce]
      rw [h1, h2]

/-! ### The identity headers depend only on the resolved credentials -/

theorem setIdentityHeaders_uid (h : Header) (cred : Cred) (lu lg : Nat → Option String) :
    hGetValues (setIdentityHeaders h cred lu lg) "X-Auth-UID" = [toString cred.uid] := by
  have hXF : canonicalMIMEHeaderKey "X-Auth-UID" ≠ canonicalMIMEHeaderKey "X-Forwarded-For" := by
    decide
  have hRo : canonicalMIMEHeaderKey "X-Auth-UID" ≠ canonicalMIMEHeaderKey "X-Auth-Roles" := by
    decide
  have hGr : canonicalMIMEHeaderKey "X-Auth-UID" ≠ canonicalMIMEHeaderKey "X-Auth-Group" := by
    decide
  have hGI : canonicalMIMEHeaderKey "X-Auth-UID" ≠ canonicalMIMEHeaderKey "X-Auth-GID" := by
    decide
  have hUs : canonicalMIMEHeaderKey "X-Auth-UID" ≠ canonicalMIMEHeaderKey "X-Auth-User" := by
    decide
  rw [hGetValues]
  cases hlu : lu cred.uid with
  | none =>
    cases hlg : lg cred.gid with
    | none =>
      simp only [setIdentityHeaders, hlu, hlg]
      rw [hFindVals_hSet_ne _ _ _ _ hXF, hFindVals_hDel_ne _ _ _ hRo,
        hFindVals_hDel_ne _ _ _ hGr, hFindVals_hSet_ne _ _ _ _ hGI,
        hFindVals_hDel_ne _ _ _ hUs]
      exact hFindVals_hSet_same _ _ _ _ rfl
    | some grp =>
      simp only [setIdentityHeaders, hlu, hlg]
      rw [hFindVals_hSet_ne _ _ _ _ hXF, hFindVals_hDel_ne _ _ _ hRo,
        hFindVals_hSet_ne _ _ _ _ hGr, hFindVals_hSet_ne _ _ _ _ hGI,
        hFindVals_hDel_ne _ _ _ hUs]
      exact hFindVals_hSet_same _ _ _ _ rfl
  | some usr =>
    cases hlg : lg cred.gid with
    | none =>
      simp only [setIdentityHeaders, hlu, hlg]
      rw [hFindVals_hSet_ne _ _ _ _ hXF, hFindVals_hDel_ne _ _ _ hRo,
        hFindVals_hDel_ne _ _ _ hGr, hFindVals_hSet_ne _ _ _ _ hGI,
        hFindVals_hSet_ne _ _ _ _ hUs]
      exact hFindVals_hSet_same _ _ _ _ rfl
    | some grp =>
      simp only [setIdentityHeaders, hlu, hlg]
      rw [hFindVals_hSet_ne _ _ _ _ hXF, hFindVals_hDel_ne _ _ _ hRo,
        hFindVals_hSet_ne _ _ _ _ hGr, hFindVals_hSet_ne _ _ _ _ hGI,
        hFindVals_hSet_ne _ _ _ _ hUs]
      exact hFindVals_hSet_same _ _ _ _ rfl

theorem setIdentityHeaders_gid (h : Header) (cred : Cred) (lu lg : Nat → Option String) :
    hGetValues (setIdentityHeaders h cred lu lg) "X-Auth-GID" = [toString cred.gid] := by
  have hXF : canonicalMIMEHeaderKey "X-Auth-GID" ≠ canonicalMIMEHeaderKey "X-Forwarded-For" := by
    decide
  have hRo : canonicalMIMEHeaderKey "X-Auth-GID" ≠ canonicalMIMEHeaderKey "X-Auth-Roles" := by
    decide
  have hGr : canonicalMIMEHeaderKey "X-Auth-GID" ≠ canonicalMIMEHeaderKey "X-Auth-Group" := by
    decide
  rw [hGetValues]
  cases hlg : lg cred.gid with
  | none =>
    simp only [setIdentityHeaders, hlg]
    rw [hFindVals_hSet_ne _ _ _ _ hXF, hFindVals_hDel_ne _ _ _ hRo,
      hFindVals_hDel_ne _ _ _ hGr]
    exact hFindVals_hSet_same _ _ _ _ rfl
  | some grp =>
    simp only [setIdentityHeaders, hlg]
    rw [hFindVals_hSet_ne _ _ _ _ hXF, hFindVals_hDel_ne _ _ _ hRo,
      hFindVals_hSet_ne _ _ _ _ hGr]
    exact hFindVals_hSet_same _ _ _ _ rfl

theorem setIdentityHeaders_user (h : Header) (cred : Cred) (lu lg : Nat → Option String) :
    hGetValues (setIdentityHeaders h cred lu lg) "X-Auth-User"
      = match lu cred.uid with | some usr => [usr] | none => [] := by
  have hXF : canonicalMIMEHeaderKey "X-Auth-User" ≠ canonicalMIMEHeaderKey "X-Forwarded-For" := by
    decide
  have hRo : canonicalMIMEHeaderKey "X-Auth-User" ≠ canonicalMIMEHeaderKey "X-Auth-Roles" := by
    decide
  have hGr : canonicalMIMEHeaderKey "X-Auth-User" ≠ canonicalMIMEHeaderKey "X-Auth-Group" := by
    decide
  have hGI : canonicalMIMEHeaderKey "X-Auth-User" ≠ canonicalMIMEHeaderKey "X-Auth-GID" := by
    decide
  rw [hGetValues]
  cases hlu : lu cred.uid with
  | none =>
    cases hlg : lg cred.gid with
    | none =>
      simp only [setIdentityHeaders, hlu, hlg]
      rw [hFindVals_hSet_ne _ _ _ _ hXF, hFindVals_hDel_ne _ _ _ hRo,
        hFindVals_hDel_ne _ _ _ hGr, hFindVals_hSet_ne _ _ _ _ hGI]
      exact hFindVals_hDel_same _ _
    | some grp =>
      simp only [setIdentityHeaders, hlu, hlg]
      rw [hFindVals_hSet_ne _ _ _ _ hXF, hFindVals_hDel_ne _ _ _ hRo,
        hFindVals_hSet_ne _ _ _ _ hGr, hFindVals_hSet_ne _ _ _ _ hGI]
      exact hFindVals_hDel_same _ _
  | some usr =>
    cases hlg : lg cred.gid with
    | none =>
      simp only [setIdentityHeaders, hlu, hlg]
      rw [hFindVals_hSet_ne _ _ _ _ hXF, hFindVals_hDel_ne _ _ _ hRo,
        hFindVals_hDel_ne _ _ _ hGr, hFindVals_hSet_ne _ _ _ _ hGI]
      exact hFindVals_hSet_same _ _ _ _ rfl
    | some grp =>
      simp only [setIdentityHeaders, hlu, hlg]
      rw [hFindVals_hSet_ne _ _ _ _ hXF, hFindVals_hDel_ne _ _ _ hRo,
        hFindVals_hSet_ne _ _ _ _ hGr, hFindVals_hSet_ne _ _ _ _ hGI]
      exact hFindVals_hSet_same _ _ _ _ rfl

theorem setIdentityHeaders_group (h : Header) (cred : Cred) (lu lg : Nat → Option String) :
    hGetValues (setIdentityHeaders h cred lu lg) "X-Auth-Group"
      = match lg cred.gid with | some grp => [grp] | none => [] := by
  have hXF : canonicalMIMEHeaderKey "X-Auth-Group" ≠ canonicalMIMEHeaderKey "X-Forwarded-For" := by
    decide
  have hRo : canonicalMIMEHeaderKey "X-Auth-Group" ≠ canonicalMIMEHeaderKey "X-Auth-Roles" := by
    decide
  rw [hGetValues]
  cases hlg : lg cred.gid with
  | none =>
    simp only [setIdentityHeaders, hlg]
    rw [hFindVals_hSet_ne _ _ _ _ hXF, hFindVals_hDel_ne _ _ _ hRo]
    exact hFindVals_hDel_same _ _
  | some grp =>
    simp only [setIdentityHeaders, hlg]
    rw [hFindVals_hSet_ne _ _ _ _ hXF, hFindVals_hDel_ne _ _ _ hRo]
    exact hFindVals_hSet_same _ _ _ _ rfl

/-- When the credential read succeeds, the handler issues exactly the
outbound request built by `buildBackendRequest` (whatever the round trip
then returns). -/
theorem issuedRequest_handleProxyRequest (opts : Settings) (r : Request) (cred : Cred)
    (lu lg : Nat → Option String) (clientDo : Request → Except UrlError Response) :
    issuedRequest (handleProxyRequest opts r (.ok cred) lu lg clientDo).backend
      = some (buildBackendRequest opts r cred lu lg) := by
  simp only [handleProxyRequest]
  cases clientDo (buildBackendRequest opts r cred lu lg) <;> rfl

theorem filter_self_idem {α : Type} (p : α → Bool) (l : List α) :
    (l.filter p).filter p = l.filter p := by
  induction l with
  | nil => rfl
  | cons a t ih =>
    rw [List.filter_cons]
    by_cases h : p a = true
    · rw [if_pos h, List.filter_cons, if_pos h, ih]
    · rw [if_neg h, ih]

/-! ### Concrete instances used by the witnesses -/

/-- The CLI default settings with a socket path (see `cmd/uds-proxy/main.go`). -/
def exOpts : Settings :=
  { socketPath := "/tmp/proxied-svc.sock", socketMode := 493, clientTimeout := 5000
    maxConnsPerHost := 20, maxIdleConns := 100, maxIdleConnsPerHost := 15
    idleConnTimeout := 90000, socketReadTimeout := 5500, socketWriteTimeout := 5500
    printVersion := false, noLogTimeStamps := false, remoteHTTPS := false
    forceRemoteHost := "", insecureSkipVerify := false }

/-- The same settings with a forced remote host and https. -/
def exOptsForced : Settings :=
  { exOpts with forceRemoteHost := "backend.internal:8080", remoteHTTPS := true }

def exCred : Cred := { uid := 1000, gid := 1000 }

def exLookupU : Nat → Option String := fun n => if n = 1000 then some "alice" else none

def exLookupG : Nat → Option String := fun n => if n = 1000 then some "users" else none

def exLookupNone : Nat → Option String := fun _ => none

/-- An inbound request carrying a client-supplied identity header. -/
def exRequest : Request :=
  { method := "GET", host := "svc.local", urlStr := "/status?v=1"
    header := [("Accept", ["*/*"]), ("X-Auth-Uid", ["0"])], body := "" }

/-- The same inbound request without the client-supplied identity header. -/
def exRequest2 : Request :=
  { exRequest with header := [("Accept", ["*/*"])] }

def exResponse : Response :=
  { statusCode := 200
    header := [("Content-Type", ["text/plain"]), ("Set-Cookie", ["a=1", "b=2"])]
    body := "ok" }

def exSendOk : Request → Except UrlError Response := fun _ => .ok exResponse

def exTimeoutErr : UrlError := { msg := "context deadline exceeded", isTimeout := true }

def exSendTimeout : Request → Except UrlError Response := fun _ => .error exTimeoutErr

def exConnErr : UrlError := { msg := "connect: connection refused", isTimeout := false }

def exSendRefused : Request → Except UrlError Response := fun _ => .error exConnErr

def exRedirectResponse : Response :=
  { statusCode := 302
    header := [("Location", ["https://other.example/next"])]
    body := "" }

def exSendRedirect : Request → Except UrlError Response := fun _ => .ok exRedirectResponse

/-! ### The claims -/

/-- C2, counterexample: at a concrete request on which the peer-credential
read fails, the handler issues no backend request and answers the client
with a 500 error response — contradicting the claim that the request is
still forwarded and that no error response is sent for this reason. -/
theorem C2_counterexample :
    (handleProxyRequest exOpts exRequest (.error "getsockopt: not a unix socket")
        exLookupU exLookupG exSendOk).backend = .notIssued
  ∧ (handleProxyRequest exOpts exRequest (.error "getsockopt: not a unix socket")
        exLookupU exLookupG exSendOk).response.status = 500 :=
  ⟨rfl, rfl⟩

/-- C2, amended: on credential-resolution failure the relay does not forward
the request at all; it answers the client with status 500 and the error text
as body (lines 163–168 of `conn.go`). -/
theorem C2_cred_failure_rejected (opts : Settings) (r : Request) (e : String)
    (lu lg : Nat → Option String) (clientDo : Request → Except UrlError Response) :
    (handleProxyRequest opts r (.error e) lu lg clientDo).backend = .notIssued
  ∧ (handleProxyRequest opts r (.error e) lu lg clientDo).response.status = 500
  ∧ (handleProxyRequest opts r (.error e) lu lg clientDo).response.body = e ++ "\n" :=
  ⟨rfl, rfl, rfl⟩

/-- C3: the outbound target URL is scheme (https when the remote-https flag
is set, else http) ++ "://" ++ host (the forced-remote-host override when
non-empty, else the inbound Host) ++ the inbound path-plus-query verbatim. -/
theorem C3_target_url (opts : Settings) (r : Request) (cred : Cred)
    (lu lg : Nat → Option String) (clientDo : Request → Except UrlError Response)
    (b : Request)
    (hb : issuedRequest (handleProxyRequest opts r (.ok cred) lu lg clientDo).backend = some b) :
    b.urlStr =
      (if opts.remoteHTTPS then "https" else "http") ++ "://"
        ++ (if opts.forceRemoteHost ≠ "" then opts.forceRemoteHost else r.host)
        ++ r.urlStr := by
  rw [issuedRequest_handleProxyRequest] at hb
  injection hb with hb
  subst hb
  rfl

theorem C3_witness :
    (buildBackendRequest exOptsForced exRequest exCred exLookupU exLookupG).urlStr =
      (if exOptsForced.remoteHTTPS then "https" else "http") ++ "://"
        ++ (if exOptsForced.forceRemoteHost ≠ "" then exOptsForced.forceRemoteHost
            else exRequest.host)
        ++ exRequest.urlStr :=
  C3_target_url exOptsForced exRequest exCred exLookupU exLookupG exSendOk _ rfl

/-- C4: when the pooled client round trip fails, the client gets exactly one
well-formed response: 504 with the error text when the error is a timeout,
502 with the error text otherwise; the handler returns normally. -/
theorem C4_transport_error_response (opts : Settings) (r : Request) (cred : Cred)
    (lu lg : Nat → Option String) (clientDo : Request → Except UrlError Response)
    (e : UrlError)
    (he : clientDo (buildBackendRequest opts r cred lu lg) = .error e) :
    (handleProxyRequest opts r (.ok cred) lu lg clientDo).response.status
        = (if e.isTimeout then 504 else 502)
  ∧ (handleProxyRequest opts r (.ok cred) lu lg clientDo).response.body = e.msg ++ "\n"
  ∧ (handleProxyRequest opts r (.ok cred) lu lg clientDo).backend
        = .issuedErr (buildBackendRequest opts r cred lu lg) e := by
  simp only [handleProxyRequest, he]
  refine ⟨?_, ?_, ?_⟩ <;> trivial

theorem C4_witness :
    exSendTimeout (buildBackendRequest exOpts exRequest exCred exLookupU exLookupG)
        = .error exTimeoutErr
  ∧ (handleProxyRequest exOpts exRequest (.ok exCred) exLookupU exLookupG
        exSendTimeout).response.status = (if exTimeoutErr.isTimeout then 504 else 502) :=
  ⟨rfl, (C4_transport_error_response exOpts exRequest exCred exLookupU exLookupG
    exSendTimeout exTimeoutErr rfl).1⟩

/-- C5: with the `ErrUseLastResponse` policy installed by `newHTTPClient`,
a backend 3xx response is not followed: the client's `Do` returns the first
response itself (hence its status and Location header reach the caller
unchanged). -/
theorem C5_redirect_returned_unfollowed (send : Request → Except UrlError Response)
    (req : Request) (resp : Response) (hsend : send req = .ok resp)
    (h3a : 300 ≤ resp.statusCode) (h3b : resp.statusCode ≤ 399) :
    udsClientDo send req = .ok resp := by
  simp only [udsClientDo]
  rw [show (10 : Nat) = 9 + 1 from rfl]
  simp only [clientDoLoop, hsend, udsCheckRedirect]
  by_cases hr : (redirectStatus resp.statusCode) = true
  · rw [if_pos hr]
    by_cases hl : hGet resp.header "Location" = ""
    · rw [if_pos hl]
    · rw [if_neg hl]
  · rw [if_neg hr]

theorem C5_witness :
    exSendRedirect exRequest = .ok exRedirectResponse
  ∧ 300 ≤ exRedirectResponse.statusCode
  ∧ exRedirectResponse.statusCode ≤ 399
  ∧ udsClientDo exSendRedirect exRequest = .ok exRedirectResponse :=
  ⟨rfl, by decide, by decide,
    C5_redirect_returned_unfollowed exSendRedirect exRequest exRedirectResponse rfl
      (by decide) (by decide)⟩

/-- C8: Shutdown is idempotent — running it a second time leaves the state
of the first run unchanged (and panics nowhere, being total), and after it
the socket file is absent. -/
theorem C8_shutdown_idempotent (opts : Settings) (s : SysState) :
    shutdown opts (shutdown opts s) = shutdown opts s
  ∧ opts.socketPath ∉ (shutdown opts s).files := by
  constructor
  · simp only [shutdown, osRemove, closeIdleConnections]
    simp [filter_self_idem]
  · simp only [shutdown, osRemove, closeIdleConnections]
    simp [List.mem_filter]

/-- C9: the outbound request's Host field always equals the inbound Host —
even when a forced remote host is configured, the override affects only the
target URL (line 160 of `conn.go`). -/
theorem C9_host_header_preserved (opts : Settings) (r : Request) (cred : Cred)
    (lu lg : Nat → Option String) (clientDo : Request → Except UrlError Response)
    (b : Request)
    (hb : issuedRequest (handleProxyRequest opts r (.ok cred) lu lg clientDo).backend = some b) :
    b.host = r.host := by
  rw [issuedRequest_handleProxyRequest] at hb
  injection hb with hb
  subst hb
  rfl

theorem C9_witness :
    exOptsForced.forceRemoteHost ≠ ""
  ∧ (buildBackendRequest exOptsForced exRequest exCred exLookupU exLookupG).host
      = exRequest.host :=
  ⟨by decide,
    C9_host_header_preserved exOptsForced exRequest exCred exLookupU exLookupG exSendOk _ rfl⟩

/-- C10: with `http.Client.Do`'s documented contract that every returned
error is a `*url.Error` (modelled by the round trip returning `UrlError`),
the handler's error branch is total: every error is classified to exactly
504 or 502 and a response is produced — the type assertion cannot fail, the
branch cannot panic. -/
theorem C10_url_error_classification_total (opts : Settings) (r : Request) (cred : Cred)
    (lu lg : Nat → Option String) (clientDo : Request → Except UrlError Response)
    (e : UrlError)
    (he : clientDo (buildBackendRequest opts r cred lu lg) = .error e) :
    (handleProxyRequest opts r (.ok cred) lu lg clientDo).response.status = classifyDoError e
  ∧ (classifyDoError e = 504 ∨ classifyDoError e = 502) := by
  constructor
  · simp only [handleProxyRequest, he]
    rfl
  · by_cases ht : e.isTimeout <;> simp [classifyDoError, ht]

theorem C10_witness :
    exSendRefused (buildBackendRequest exOpts exRequest exCred exLookupU exLookupG)
        = .error exConnErr
  ∧ (handleProxyRequest exOpts exRequest (.ok exCred) exLookupU exLookupG
        exSendRefused).response.status = classifyDoError exConnErr :=
  ⟨rfl, (C10_url_error_classification_total exOpts exRequest exCred exLookupU exLookupG
    exSendRefused exConnErr rfl).1⟩

/-- C1: whatever identity headers the client supplies, the outbound request's
identity headers (X-Auth-UID, X-Auth-GID, X-Auth-User, X-Auth-Group) are
determined solely by the resolved peer credentials: two inbound requests that
differ only in client-supplied identity headers yield outbound requests with
identical identity headers (the handler overwrites or deletes, never merges). -/
theorem C1_identity_headers_credential_determined
    (opts : Settings) (cred : Cred) (lu lg : Nat → Option String)
    (do1 do2 : Request → Except UrlError Response)
    (r1 r2 : Request) (b1 b2 : Request)
    (hmethod : r1.method = r2.method) (hhost : r1.host = r2.host)
    (hurl : r1.urlStr = r2.urlStr) (hbody : r1.body = r2.body)
    (hother : ∀ k : String,
      canonicalMIMEHeaderKey k ∉
        (["X-Auth-UID", "X-Auth-GID", "X-Auth-User", "X-Auth-Group"].map
          canonicalMIMEHeaderKey) →
      hGetValues r1.header k = hGetValues r2.header k)
    (hb1 : issuedRequest (handleProxyRequest opts r1 (.ok cred) lu lg do1).backend = some b1)
    (hb2 : issuedRequest (handleProxyRequest opts r2 (.ok cred) lu lg do2).backend = some b2)
    (k : String) (hk : k ∈ ["X-Auth-UID", "X-Auth-GID", "X-Auth-User", "X-Auth-Group"]) :
    hGetValues b1.header k = hGetValues b2.header k := by
  rw [issuedRequest_handleProxyRequest] at hb1 hb2
  injection hb1 with hb1
  injection hb2 with hb2
  subst hb1
  subst hb2
  simp only [List.mem_cons, List.not_mem_nil, or_false] at hk
  rcases hk with rfl | rfl | rfl | rfl
  · simp [buildBackendRequest, setIdentityHeaders_uid]
  · simp [buildBackendRequest, setIdentityHeaders_gid]
  · simp [buildBackendRequest, setIdentityHeaders_user]
  · simp [buildBackendRequest, setIdentityHeaders_group]

theorem C1_witness :
    hGetValues (buildBackendRequest exOpts exRequest exCred exLookupU exLookupG).header
        "X-Auth-UID"
      = hGetValues (buildBackendRequest exOpts exRequest2 exCred exLookupU exLookupG).header
        "X-Auth-UID" :=
  C1_identity_headers_credential_determined exOpts exCred exLookupU exLookupG exSendOk exSendOk
    exRequest exRequest2 _ _ rfl rfl rfl rfl
    (by
      intro k hk
      have hmem : ("X-Auth-Uid" : String) ∈
          (["X-Auth-UID", "X-Auth-GID", "X-Auth-User", "X-Auth-Group"].map
            canonicalMIMEHeaderKey) := by decide
      have hA : ¬(("X-Auth-Uid" : String) = canonicalMIMEHeaderKey k) := by
        intro heq
        exact hk (by rw [← heq]; exact hmem)
      simp [exRequest, exRequest2, hGetValues, hFindVals, hA])
    rfl rfl "X-Auth-UID" (by decide)

/-- C6: when the credential read succeeds but a symbolic name lookup fails,
the numeric X-Auth-UID and X-Auth-GID headers are still set on the outbound
request, and the corresponding name header (X-Auth-User / X-Auth-Group) is
absent — deleted, never set to a fabricated value. -/
theorem C6_lookup_miss_numeric_kept (opts : Settings) (r : Request) (cred : Cred)
    (lu lg : Nat → Option String) (clientDo : Request → Except UrlError Response)
    (b : Request)
    (hb : issuedRequest (handleProxyRequest opts r (.ok cred) lu lg clientDo).backend = some b) :
    hGetValues b.header "X-Auth-UID" = [toString cred.uid]
  ∧ hGetValues b.header "X-Auth-GID" = [toString cred.gid]
  ∧ (lu cred.uid = none → hGetValues b.header "X-Auth-User" = [])
  ∧ (lg cred.gid = none → hGetValues b.header "X-Auth-Group" = []) := by
  rw [issuedRequest_handleProxyRequest] at hb
  injection hb with hb
  subst hb
  refine ⟨setIdentityHeaders_uid r.header cred lu lg,
    setIdentityHeaders_gid r.header cred lu lg, ?_, ?_⟩
  · intro hnone
    have h := setIdentityHeaders_user r.header cred lu lg
    rw [hnone] at h
    exact h
  · intro hnone
    have h := setIdentityHeaders_group r.header cred lu lg
    rw [hnone] at h
    exact h

theorem C6_witness :
    hGetValues (buildBackendRequest exOpts exRequest exCred exLookupNone exLookupNone).header
        "X-Auth-UID" = [toString exCred.uid]
  ∧ hGetValues (buildBackendRequest exOpts exRequest exCred exLookupNone exLookupNone).header
        "X-Auth-User" = [] :=
  have h := C6_lookup_miss_numeric_kept exOpts exRequest exCred exLookupNone exLookupNone
    exSendOk _ rfl
  ⟨h.1, h.2.2.1 rfl⟩

/-- C7: for a successful backend response, every response header is copied to
the client response (multi-value headers keep all values in order), the
backend status code is written as the client status, the body is relayed, and
the backend response body is closed. -/
theorem C7_response_relay (opts : Settings) (r : Request) (cred : Cred)
    (lu lg : Nat → Option String) (clientDo : Request → Except UrlError Response)
    (resp : Response)
    (hok : clientDo (buildBackendRequest opts r cred lu lg) = .ok resp)
    (hwf : headerWF resp.header) (k : String) :
    (handleProxyRequest opts r (.ok cred) lu lg clientDo).response.status = resp.statusCode
  ∧ (handleProxyRequest opts r (.ok cred) lu lg clientDo).response.body = resp.body
  ∧ hGetValues (handleProxyRequest opts r (.ok cred) lu lg clientDo).response.header k
      = hGetValues resp.header k
  ∧ (handleProxyRequest opts r (.ok cred) lu lg clientDo).backend
      = .issuedOk (buildBackendRequest opts r cred lu lg) resp true := by
  obtain ⟨hnd, hprops⟩ := hwf
  simp only [handleProxyRequest, hok]
  refine ⟨by trivial, by trivial, ?_, by trivial⟩
  rw [hGetValues, hGetValues,
    hFindVals_copyRespHeaders resp.header (canonicalMIMEHeaderKey k) [] hnd
      (fun e m => (hprops e m).1) (fun e m => (hprops e m).2)]
  by_cases hp : (resp.header.any (fun e => e.1 = canonicalMIMEHeaderKey k)) = true
  · rw [if_pos hp]
  · rw [if_neg hp,
      hFindVals_absent resp.header _ (absent_of_any_eq_false _ _ (Bool.eq_false_iff.mpr hp))]
    rfl

theorem C7_witness :
    exSendOk (buildBackendRequest exOpts exRequest exCred exLookupU exLookupG) = .ok exResponse
  ∧ hGetValues (handleProxyRequest exOpts exRequest (.ok exCred) exLookupU exLookupG
        exSendOk).response.header "Set-Cookie"
      = hGetValues exResponse.header "Set-Cookie" :=
  ⟨rfl, (C7_response_relay exOpts exRequest exCred exLookupU exLookupG exSendOk exResponse
    rfl ⟨by decide, by decide⟩ "Set-Cookie").2.2.1⟩

end UdsProxy
